import Mathlib

/-!
Verification of the CSAT-Solver training/inference script (`src/main.py`).

The development shallowly embeds the data-transformation pipeline of the
script: the record normalizer (`record_to_df`), the prompt builder
(`train_df_to_process_df` / `test_df_to_process_df`), the tokenized-length
filter and train/test split, the training-evaluation logit selection
(`preprocess_logits_for_metrics` plus the softmax/argmax of
`compute_metrics`), the inference choice scorer, and the `__main__`
entry-point control flow.

Python strings are modelled as lists of characters (`PyStr`); machine
floats are idealized as real numbers; external collaborators
(`ast.literal_eval`, the tokenizer, the seeded random draws of
`pandas.DataFrame.sample` and `datasets.train_test_split`) are parameters
of the definitions that use them, with their documented behavior stated
where a claim depends on it.
-/

/-- Python strings, modelled as lists of characters. -/
abbrev PyStr := List Char

/-- The flattened `problems` structure decoded by `ast.literal_eval` from a
raw row (`main.py` line 47).  The Python value is a dict; the optional keys
`answer` and `question_plus` (read with `dict.get(key, None)`) are modelled
as `Option` fields, so an absent key is `none`, never a lookup failure. -/
structure Problems where
  question : PyStr
  choices : List PyStr
  answer : Option Int
  question_plus : Option PyStr

/-- A raw CSV row with columns `id`, `paragraph`, `problems`
(`problems` is the still-serialized structure). -/
structure RawRow where
  id : PyStr
  paragraph : PyStr
  problems : PyStr

/-- The flat record built per row by `record_to_df` (`main.py` lines 48-55). -/
structure ExamRecord where
  id : PyStr
  paragraph : PyStr
  question : PyStr
  choices : List PyStr
  answer : Option Int
  question_plus : Option PyStr
deriving DecidableEq

/-- The record built for one raw row by the loop body of `record_to_df`
(`main.py` lines 47-58).  `id` and `paragraph` are copied verbatim from the
row; the remaining fields come from the decoded `problems` structure.  The
redundant re-assignment of `question_plus` at lines 57-58 stores the same
value as line 54 and is dropped. -/
def record_of_row (row : RawRow) (problems : Problems) : ExamRecord :=
  { id := row.id
    paragraph := row.paragraph
    question := problems.question
    choices := problems.choices
    answer := problems.answer
    question_plus := problems.question_plus }

/-- `record_to_df` (`main.py` lines 44-61): decode each row's `problems`
with `ast.literal_eval` (the decoder is the parameter `parse`; `none`
models a raised parse error, which aborts the whole loop) and collect the
flattened records in row order. -/
def record_to_df (parse : PyStr → Option Problems) : List RawRow → Option (List ExamRecord)
  | [] => some []
  | row :: rest =>
    match parse row.problems with
    | none => none
    | some problems => (record_to_df parse rest).map (fun l => record_of_row row problems :: l)

/-- The f-string `"{idx + 1} - {choice}"` for one enumerated choice
(`main.py` lines 67 and 104). -/
def fstring_choice_line (idx : Nat) (choice : PyStr) : PyStr :=
  (toString (idx + 1)).toList ++ (" - ").toList ++ choice

/-- `choices_string` (`main.py` lines 67 and 104):
`"\n".join(f"{idx + 1} - {choice}" for idx, choice in enumerate(choices))`. -/
def choices_string (choices : List PyStr) : PyStr :=
  List.intercalate ['\n'] (choices.enum.map (fun p => fstring_choice_line p.1 p.2))

/-- Python truthiness of the `question_plus` field as used by
`if dataset[i]["question_plus"]:` — `None` and the empty string are falsy,
every non-empty string is truthy. -/
def py_truthy : Option PyStr → Bool
  | none => false
  | some s => !s.isEmpty

/-- The user message of one prompt (`main.py` lines 70-83 and 107-121):
the template with `question_plus` is selected iff the record's
`question_plus` is truthy.  The two `str.format` templates
(`custom_args.prompt_question_plus` / `prompt_no_question_plus`, defined
outside this file) are the parameters `q_plus` and `no_q_plus`, applied to
(paragraph, question, [question_plus,] rendered choices block). -/
def user_message (q_plus : PyStr → PyStr → PyStr → PyStr → PyStr)
    (no_q_plus : PyStr → PyStr → PyStr → PyStr) (r : ExamRecord) : PyStr :=
  if py_truthy r.question_plus then
    q_plus r.paragraph r.question (r.question_plus.getD []) (choices_string r.choices)
  else
    no_q_plus r.paragraph r.question (choices_string r.choices)

/-- Roles of a chat message. -/
inductive Role where
  | system
  | user
  | assistant
deriving DecidableEq

/-- One chat message, as in the `messages` lists of `main.py`. -/
structure PromptMessage where
  role : Role
  content : PyStr
deriving DecidableEq

/-- The fixed system turn (`main.py` lines 90 and 127). -/
def system_message : PromptMessage :=
  { role := Role.system, content := "지문을 읽고 질문의 답을 구하세요.".toList }

/-- Python `f"{answer}"` on the stored `answer` value (an int, or `None`
when the key was absent). -/
def py_format_answer : Option Int → PyStr
  | some a => (toString a).toList
  | none => "None".toList

/-- The message sequence of one training example (`main.py` lines 89-93):
system turn, user turn, assistant turn holding the stringified answer. -/
def train_messages (q_plus : PyStr → PyStr → PyStr → PyStr → PyStr)
    (no_q_plus : PyStr → PyStr → PyStr → PyStr) (r : ExamRecord) : List PromptMessage :=
  [system_message,
   { role := Role.user, content := user_message q_plus no_q_plus r },
   { role := Role.assistant, content := py_format_answer r.answer }]

/-- The message sequence of one inference example (`main.py` lines 126-129):
system turn and user turn only. -/
def test_messages (q_plus : PyStr → PyStr → PyStr → PyStr → PyStr)
    (no_q_plus : PyStr → PyStr → PyStr → PyStr) (r : ExamRecord) : List PromptMessage :=
  [system_message,
   { role := Role.user, content := user_message q_plus no_q_plus r }]

/-- One element of the processed training dataset (`main.py` lines 86-96). -/
structure TrainItem where
  id : PyStr
  messages : List PromptMessage
  label : Option Int
deriving DecidableEq

/-- `train_df_to_process_df` (`main.py` lines 64-98), one item per record. -/
def train_df_to_process_df (q_plus : PyStr → PyStr → PyStr → PyStr → PyStr)
    (no_q_plus : PyStr → PyStr → PyStr → PyStr) (rs : List ExamRecord) : List TrainItem :=
  rs.map (fun r => { id := r.id, messages := train_messages q_plus no_q_plus r, label := r.answer })

/-- One element of the processed inference dataset (`main.py` lines 123-133). -/
structure InferenceItem where
  id : PyStr
  messages : List PromptMessage
  label : Option Int
  len_choices : Nat
deriving DecidableEq

/-- `test_df_to_process_df` (`main.py` lines 101-135), one item per record;
`len_choices` is `len(row["choices"])` (line 105). -/
def test_df_to_process_df (q_plus : PyStr → PyStr → PyStr → PyStr → PyStr)
    (no_q_plus : PyStr → PyStr → PyStr → PyStr) (rs : List ExamRecord) : List InferenceItem :=
  rs.map (fun r =>
    { id := r.id
      messages := test_messages q_plus no_q_plus r
      label := r.answer
      len_choices := r.choices.length })

/-- One tokenized example (`main.py` lines 219-230). -/
structure TokenizedExample where
  input_ids : List Nat
  attention_mask : List Nat
deriving DecidableEq

/-- The length filter (`main.py` line 244):
`tokenized_dataset.filter(lambda x: len(x["input_ids"]) <= mex_seq_len)`.
(`mex_seq_len` is the variable name used in the source.) -/
def filter_by_max_length (mex_seq_len : Nat) (ds : List TokenizedExample) : List TokenizedExample :=
  ds.filter (fun x => x.input_ids.length ≤ mex_seq_len)

/-- Number of rows put in the `test` (eval) part by
`train_test_split(test_size=0.1, seed=42)` (`main.py` line 245).  The
external `datasets` library computes, sklearn-style,
`n_test = ceil(test_size * n_samples)` for a float `test_size`; modelled
here in exact rational arithmetic (the float product `0.1 * n` has the
same ceiling for all dataset sizes of interest). -/
def n_test_of (n : Nat) : Nat := ⌈(1 / 10 : ℚ) * n⌉₊

/-- The eval-partition size as the specification document words it:
`round(0.1 * len(filtered))`.  Stated only to be compared with
`n_test_of`, the size the library actually produces. -/
def n_test_spec (n : Nat) : Int := round ((1 / 10 : ℚ) * n)

/-- Row selection by a list of positions (the library's
`dataset.select(indices)`); out-of-range positions select nothing, but
every caller below supplies in-range positions only. -/
def select_rows {α : Type} (xs : List α) (idx : List Nat) : List α :=
  idx.filterMap (fun i => xs.get? i)

/-- The two parts produced by `train_test_split` (`main.py` lines 245-248). -/
structure SplitPair (α : Type) where
  train : List α
  test : List α
deriving DecidableEq

/-- `train_test_split(test_size=0.1, seed=42)` (`main.py` line 245), as
implemented by the external `datasets` library: draw a permutation of
`range(n)` from a generator seeded with 42, take the first
`n_test` permuted positions as the test (eval) part and the remaining
`n - n_test` as the train part.  The permutation is the parameter `perm`;
the library derives it as a pure function of the seed and `n`, so a fixed
seed fixes `perm`. -/
def train_test_split {α : Type} (perm : List Nat) (xs : List α) : SplitPair α :=
  let nt := n_test_of xs.length
  { train := select_rows xs (perm.drop nt), test := select_rows xs (perm.take nt) }

/-- The five-entry digit-id list of `preprocess_logits_for_metrics`
(`main.py` lines 258-259):
`[tokenizer.vocab["1"], ..., tokenizer.vocab["5"]]` — always all five
digits, independent of any per-item choice count. -/
def logit_idx (vocab : PyStr → Nat) : List Nat :=
  [vocab "1".toList, vocab "2".toList, vocab "3".toList,
   vocab "4".toList, vocab "5".toList]

/-- `preprocess_logits_for_metrics` (`main.py` lines 256-261) for one
example of the batch: index the logits at sequence position `-2`
(`logits[:, -2, logit_idx]`; the comment in the source reads
"-2: answer token, -1: eos token") and gather the five digit logits
there.  An example shorter than two positions would make the `-2` index
raise, modelled as `none`. -/
def preprocess_logits_for_metrics (vocab : PyStr → Nat) (logits : List (Nat → ℝ)) :
    Option (List ℝ) :=
  if h : 2 ≤ logits.length then
    some ((logit_idx vocab).map
      (logits.get ⟨logits.length - 2, by omega⟩))
  else none

/-- `np.argmax` over a list: the position of the first greatest element
(0 on the empty list, on which numpy would raise). -/
def np_argmax {α : Type} [LinearOrder α] : List α → Nat
  | [] => 0
  | x :: xs =>
    match xs.get? (np_argmax xs) with
    | none => 0
    | some m => if x < m then np_argmax xs + 1 else 0

/-- `torch.nn.functional.softmax` over one vector (`main.py` lines 278 and
362-365), idealized over the reals. -/
noncomputable def softmax (xs : List ℝ) : List ℝ :=
  xs.map (fun x => Real.exp x / (xs.map Real.exp).sum)

/-- The per-example composition of `preprocess_logits_for_metrics` with the
scoring part of `compute_metrics` (`main.py` lines 277-279): softmax the
gathered digit logits and take the argmax, giving the predicted 0-indexed
choice of the training-evaluation path. -/
noncomputable def train_eval_prediction (vocab : PyStr → Nat) (logits : List (Nat → ℝ)) :
    Option Nat :=
  (preprocess_logits_for_metrics vocab logits).map (fun v => np_argmax (softmax v))

/-- `pred_choices_map = {0: "1", 1: "2", 2: "3", 3: "4", 4: "5"}`
(`main.py` line 330); a key outside `0..4` would be a `KeyError`,
modelled as `none`. -/
def pred_choices_map : Nat → Option PyStr
  | 0 => some "1".toList
  | 1 => some "2".toList
  | 2 => some "3".toList
  | 3 => some "4".toList
  | 4 => some "5".toList
  | _ => none

/-- `target_logit_list` (`main.py` line 360):
`[logits[tokenizer.vocab[str(i + 1)]] for i in range(len_choices)]` —
the logits at the vocabulary ids of the digits `"1"..str(len_choices)`,
in ascending digit order.  `logits` is the flattened last-position logits
vector of the forward pass (line 358). -/
def target_logit_list (vocab : PyStr → Nat) (logits : Nat → ℝ) (len_choices : Nat) :
    List ℝ :=
  (List.range len_choices).map (fun i => logits (vocab (toString (i + 1)).toList))

/-- The inference-path choice scorer (`main.py` lines 358-367): softmax the
`len_choices` gathered digit logits, argmax, and map the 0-indexed argmax
back to a digit string through `pred_choices_map`. -/
noncomputable def infer_predict (vocab : PyStr → Nat) (logits : Nat → ℝ)
    (len_choices : Nat) : Option PyStr :=
  pred_choices_map (np_argmax (softmax (target_logit_list vocab logits len_choices)))

/-- The arguments `main` is invoked with. -/
structure MainCall where
  run_name : PyStr
  debug : Bool
deriving DecidableEq

/-- The call `main(argv_run_name, debug=True)` at `main.py` line 394:
every `__main__` invocation passes `debug=True`. -/
def main_invocation (argv_run_name : PyStr) : MainCall :=
  { run_name := argv_run_name, debug := true }

/-- The debug subsampling (`main.py` line 165):
`dataset.sample(500, random_state=SEED).reset_index(drop=True) if debug
else dataset`.  `pandas.DataFrame.sample` draws 500 distinct row positions
from a generator seeded with the fixed global seed; the drawn positions
are the parameter `sample_idx`, a pure function of the seed and the frame,
with `len(sample_idx) = 500` whenever the frame has at least 500 rows. -/
def load_input_rows (debug : Bool) (sample_idx : List Nat) (rows : List RawRow) :
    List RawRow :=
  if debug then select_rows rows sample_idx else rows

/-- The `while` loop of the `__main__` block (`main.py` lines 390-392):
re-prompt on the stream of interactive answers until a non-empty one
appears (it is returned); `none` models the loop never terminating on a
stream that is exhausted while still empty. -/
def reprompt_run_name : List PyStr → Option PyStr
  | [] => none
  | s :: rest => if s.isEmpty then reprompt_run_name rest else some s

/-- The `__main__` run-name acquisition (`main.py` lines 384-392):
`sys.argv.index('--run_name')` raises `ValueError` when the flag is
absent, landing in the `except` branch that re-prompts interactively;
when the flag is present the next argv entry is taken (`none` models the
uncaught `IndexError` when the flag is the final argument). -/
def parse_argv_run_name (argv : List PyStr) (inputs : List PyStr) : Option PyStr :=
  match argv.indexOf? "--run_name".toList with
  | some i => argv.get? (i + 1)
  | none => reprompt_run_name inputs

/-- Outcome of the core `try` block of `main` (`main.py` lines 290-379):
what was logged by the `except` branch, whether the `finally` cleanup
(`torch.cuda.empty_cache()`) ran, and the propagated outcome.  The body
either completes (`Except.ok`) or raises (`Except.error`). -/
structure TryResult (ε α : Type) where
  logged : List ε
  cleanup_ran : Bool
  outcome : Except ε α

/-- The `try/except/finally` of `main` (`main.py` lines 290-379): an
exception is logged and re-raised (`raise e`), and the `finally` cleanup
runs on both paths; there is no local recovery. -/
def main_try_block (ε α : Type) (body : Except ε α) : TryResult ε α :=
  match body with
  | Except.ok a => { logged := [], cleanup_ran := true, outcome := Except.ok a }
  | Except.error e => { logged := [e], cleanup_ran := true, outcome := Except.error e }

/-- A concrete vocabulary for the training-evaluation counterexample:
the digit strings "1".."5" get ids 0..4. -/
def cx_vocab : PyStr → Nat := fun s =>
  if s = "1".toList then 0
  else if s = "2".toList then 1
  else if s = "3".toList then 2
  else if s = "4".toList then 3
  else if s = "5".toList then 4
  else 5

/-- A concrete two-position logits tensor for one evaluated example: at the
answer position (second-to-last, here position 0) the id of digit "5"
carries the greatest logit. -/
def cx_example : List (Nat → ℝ) :=
  [fun i => if i = 4 then 1 else 0, fun _ => 0]

/-! Helper lemmas. -/

theorem select_rows_cons {α : Type} (xs : List α) (i : Nat) (rest : List Nat) :
    select_rows xs (i :: rest) =
      match xs.get? i with
      | some a => a :: select_rows xs rest
      | none => select_rows xs rest := by
  simp only [select_rows, List.filterMap_cons]
  cases xs.get? i <;> rfl

theorem select_rows_length {α : Type} (xs : List α) (idx : List Nat)
    (h : ∀ i ∈ idx, i < xs.length) : (select_rows xs idx).length = idx.length := by
  induction idx with
  | nil => rfl
  | cons i rest ih =>
    have hi : i < xs.length := h i (List.mem_cons_self i rest)
    rw [select_rows_cons, List.get?_eq_get hi]
    simp only [List.length_cons]
    rw [ih (fun j hj => h j (List.mem_cons_of_mem i hj))]

theorem select_rows_range {α : Type} (xs : List α) :
    select_rows xs (List.range xs.length) = xs := by
  induction xs with
  | nil => rfl
  | cons a t ih =>
    rw [List.length_cons, List.range_succ_eq_map]
    simp only [select_rows, List.filterMap_cons, List.get?, List.filterMap_map]
    have hfun : ((fun i => (a :: t).get? i) ∘ Nat.succ) = (fun i => t.get? i) := by
      funext i
      rfl
    rw [hfun]
    exact congrArg (a :: ·) ih

theorem choices_string_lines (choices : List PyStr) (hne : choices ≠ [])
    (hnl : ∀ c ∈ choices, '\n' ∉ c) (hlen : choices.length ≤ 5) :
    (choices_string choices).splitOn '\n' =
      choices.enum.map (fun p => fstring_choice_line p.1 p.2) := by
  apply List.splitOn_intercalate
  · intro l hl
    simp only [List.mem_map] at hl
    obtain ⟨⟨i, c⟩, hmem, rfl⟩ := hl
    have hic : choices.get? i = some c := by
      have := List.mk_mem_enum_iff_getElem?.mp hmem
      simpa [List.get?_eq_getElem?] using this
    have hi : i < choices.length := by
      rcases List.get?_eq_some.mp hic with ⟨hlt, _⟩
      exact hlt
    have hc : c ∈ choices := List.get?_mem hic
    have hi5 : i < 5 := lt_of_lt_of_le hi hlen
    have h1 : '\n' ∉ (toString (i + 1)).toList := by
      interval_cases i <;> decide
    have h2 : '\n' ∉ c := hnl c hc
    simp only [fstring_choice_line, List.mem_append, not_or]
    refine ⟨⟨h1, by decide⟩, h2⟩
  · intro h
    apply hne
    have := congrArg List.length h
    simpa using this

theorem np_argmax_cons {α : Type} [LinearOrder α] (x : α) (xs : List α) :
    np_argmax (x :: xs) =
      match xs.get? (np_argmax xs) with
      | none => 0
      | some m => if x < m then np_argmax xs + 1 else 0 := rfl

theorem np_argmax_lt_length {α : Type} [LinearOrder α] (xs : List α) (h : xs ≠ []) :
    np_argmax xs < xs.length := by
  induction xs with
  | nil => exact absurd rfl h
  | cons x t ih =>
    rw [np_argmax_cons]
    cases hg : t.get? (np_argmax t) with
    | none => simp
    | some m =>
      have hlt : np_argmax t < t.length := by
        rcases List.get?_eq_some.mp hg with ⟨hl, _⟩
        exact hl
      by_cases hx : x < m
      · simp only [hx, if_true, List.length_cons]
        exact Nat.succ_lt_succ hlt
      · simp [hx]

theorem np_argmax_map {α β : Type} [LinearOrder α] [LinearOrder β] (f : α → β)
    (hf : StrictMono f) (xs : List α) : np_argmax (xs.map f) = np_argmax xs := by
  induction xs with
  | nil => rfl
  | cons x t ih =>
    rw [List.map_cons, np_argmax_cons, np_argmax_cons, ih, List.get?_map]
    cases hg : t.get? (np_argmax t) with
    | none => simp [hg]
    | some m => simp [hg, hf.lt_iff_lt]

theorem softmax_length (xs : List ℝ) : (softmax xs).length = xs.length := by
  simp [softmax]

theorem np_argmax_softmax (xs : List ℝ) (h : xs ≠ []) :
    np_argmax (softmax xs) = np_argmax xs := by
  have hS : 0 < (xs.map Real.exp).sum := by
    apply List.sum_pos
    · intro y hy
      simp only [List.mem_map] at hy
      obtain ⟨z, _, rfl⟩ := hy
      exact Real.exp_pos z
    · intro hc
      exact h (List.map_eq_nil.mp hc)
  exact np_argmax_map _
    (fun a b hab => (div_lt_div_right hS).mpr (Real.exp_lt_exp.mpr hab)) xs

theorem pred_choices_map_of_lt (k : Nat) (hk : k < 5) :
    pred_choices_map k = some (toString (k + 1)).toList := by
  interval_cases k <;> decide

theorem n_test_of_le (n : Nat) : n_test_of n ≤ n := by
  rw [n_test_of, Nat.ceil_le]
  have hn : (0 : ℚ) ≤ (n : ℚ) := Nat.cast_nonneg n
  nlinarith

/-! Theorems settling the claims. -/

/-- C2: the choices block is the newline-join of the 1-indexed enumeration
`"{idx + 1} - {choice}"` over the choices in input order; split on
newlines it has exactly `len(choices)` lines whose i-th line is exactly
`"{i + 1} - {choice_i}"`, and `["A", "B", "C", "D"]` renders as
`"1 - A\n2 - B\n3 - C\n4 - D"`. -/
theorem choices_block_is_one_indexed_enumeration (choices : List PyStr)
    (hne : choices ≠ []) (hnl : ∀ c ∈ choices, '\n' ∉ c)
    (hlen : choices.length ≤ 5) :
    choices_string choices =
        List.intercalate ['\n'] (choices.enum.map (fun p => fstring_choice_line p.1 p.2))
    ∧ ((choices_string choices).splitOn '\n').length = choices.length
    ∧ (∀ i (hi : i < choices.length),
        ((choices_string choices).splitOn '\n').get? i =
          some (fstring_choice_line i (choices.get ⟨i, hi⟩)))
    ∧ choices_string ["A".toList, "B".toList, "C".toList, "D".toList] =
        "1 - A\n2 - B\n3 - C\n4 - D".toList := by
  have hsplit := choices_string_lines choices hne hnl hlen
  refine ⟨rfl, ?_, ?_, by decide⟩
  · rw [hsplit]
    simp
  · intro i hi
    rw [hsplit, List.get?_map, List.get?_enum, List.get?_eq_get hi]
    rfl

/-- Witness for C2 at the concrete four-choice record of the claim. -/
theorem choices_block_witness :
    ((choices_string ["A".toList, "B".toList, "C".toList, "D".toList]).splitOn '\n').length = 4 :=
  (choices_block_is_one_indexed_enumeration
    ["A".toList, "B".toList, "C".toList, "D".toList]
    (by decide) (by decide) (by decide)).2.1

/-- C3: the length filter keeps exactly the tokenized examples whose
`input_ids` length is at most the maximum, in their original relative
order (the filtered list is a sublist of the input). -/
theorem filter_retains_exactly_short_examples (L : Nat) (ds : List TokenizedExample) :
    (∀ x, x ∈ filter_by_max_length L ds ↔ x ∈ ds ∧ x.input_ids.length ≤ L)
    ∧ (filter_by_max_length L ds).Sublist ds := by
  constructor
  · intro x
    simp [filter_by_max_length, List.mem_filter]
  · exact List.filter_sublist ds

/-- C10: the `len_choices` stored in an inference item equals the number of
lines of the rendered choices block of that item, both being computed from
the same `row["choices"]` sequence. -/
theorem len_choices_matches_rendered_line_count
    (q_plus : PyStr → PyStr → PyStr → PyStr → PyStr)
    (no_q_plus : PyStr → PyStr → PyStr → PyStr)
    (rs : List ExamRecord) (i : Nat) (r : ExamRecord) (hr : rs.get? i = some r)
    (hne : r.choices ≠ []) (hnl : ∀ c ∈ r.choices, '\n' ∉ c)
    (hlen : r.choices.length ≤ 5) :
    (test_df_to_process_df q_plus no_q_plus rs).get? i =
      some { id := r.id, messages := test_messages q_plus no_q_plus r,
             label := r.answer, len_choices := r.choices.length }
    ∧ r.choices.length = ((choices_string r.choices).splitOn '\n').length := by
  constructor
  · rw [test_df_to_process_df, List.get?_map, hr]
    rfl
  · rw [choices_string_lines r.choices hne hnl hlen]
    simp

/-- Witness for C10 at a concrete two-choice record. -/
theorem len_choices_witness :
    2 = ((choices_string ["A".toList, "B".toList]).splitOn '\n').length :=
  (len_choices_matches_rendered_line_count (fun _ _ _ _ => []) (fun _ _ _ => [])
    [{ id := "a".toList, paragraph := "p".toList, question := "q".toList,
       choices := ["A".toList, "B".toList], answer := some 1, question_plus := none }]
    0
    { id := "a".toList, paragraph := "p".toList, question := "q".toList,
      choices := ["A".toList, "B".toList], answer := some 1, question_plus := none }
    rfl (by decide) (by decide) (by decide)).2

/-- C5: during training evaluation the logits row used for answer scoring
is the one at the second-to-last sequence position (index length - 2), for
every evaluated example, regardless of content: the output is determined
by that row alone. -/
theorem training_eval_scores_second_to_last_position (vocab : PyStr → Nat)
    (logits : List (Nat → ℝ)) (h : 2 ≤ logits.length)
    (hp : logits.length - 2 < logits.length) :
    preprocess_logits_for_metrics vocab logits =
      some ((logit_idx vocab).map (logits.get ⟨logits.length - 2, hp⟩))
    ∧ (∀ other : List (Nat → ℝ), other.length = logits.length →
        ∀ hq : other.length - 2 < other.length,
        other.get ⟨other.length - 2, hq⟩ = logits.get ⟨logits.length - 2, hp⟩ →
        preprocess_logits_for_metrics vocab other =
          preprocess_logits_for_metrics vocab logits) := by
  constructor
  · unfold preprocess_logits_for_metrics
    rw [dif_pos h]
  · intro other hlen hq hrow
    unfold preprocess_logits_for_metrics
    rw [dif_pos h, dif_pos (hlen ▸ h)]
    exact congrArg (fun row => some ((logit_idx vocab).map row)) hrow

/-- Witness for C5 at a concrete two-position example. -/
theorem training_eval_position_witness :
    preprocess_logits_for_metrics (fun _ => 0) [fun _ => (0 : ℝ), fun _ => 1] =
      some ((logit_idx (fun _ => 0)).map
        (([fun _ => (0 : ℝ), fun _ => 1] : List (Nat → ℝ)).get ⟨0, by decide⟩)) :=
  (training_eval_scores_second_to_last_position (fun _ => 0)
    [fun _ => (0 : ℝ), fun _ => 1] (by decide) (by decide)).1

/-- C1 (amended): in the inference scoring path, softmax is applied over
exactly the `len_choices` logit values at the vocabulary ids of the digits
"1".."N", and the returned digit is `str(argmax + 1)`, always one of
"1"..str(N); the training-evaluation path instead always gathers the
logits of all five digits "1".."5", independent of the item. -/
theorem choice_scorer_restricted_to_len_choices (vocab : PyStr → Nat)
    (logits : Nat → ℝ) (N : Nat) (h2 : 2 ≤ N) (h5 : N ≤ 5) :
    (target_logit_list vocab logits N).length = N
    ∧ (∀ i, i < N → (target_logit_list vocab logits N).get? i =
        some (logits (vocab (toString (i + 1)).toList)))
    ∧ np_argmax (target_logit_list vocab logits N) < N
    ∧ infer_predict vocab logits N =
        some (toString (np_argmax (target_logit_list vocab logits N) + 1)).toList
    ∧ (∀ d, infer_predict vocab logits N = some d →
        d ∈ (List.range N).map (fun i => (toString (i + 1)).toList))
    ∧ logit_idx vocab =
        [vocab "1".toList, vocab "2".toList, vocab "3".toList,
         vocab "4".toList, vocab "5".toList] := by
  have hlen : (target_logit_list vocab logits N).length = N := by
    simp [target_logit_list]
  have hne : target_logit_list vocab logits N ≠ [] := by
    intro hc
    rw [hc] at hlen
    simp at hlen
    omega
  have hargmax : np_argmax (target_logit_list vocab logits N) < N := by
    have := np_argmax_lt_length _ hne
    rwa [hlen] at this
  have hpred : infer_predict vocab logits N =
      some (toString (np_argmax (target_logit_list vocab logits N) + 1)).toList := by
    rw [infer_predict, np_argmax_softmax _ hne,
      pred_choices_map_of_lt _ (lt_of_lt_of_le hargmax h5)]
  refine ⟨hlen, ?_, hargmax, hpred, ?_, rfl⟩
  · intro i hi
    rw [target_logit_list, List.get?_map, List.get?_range hi]
    rfl
  · intro d hd
    rw [hpred] at hd
    rcases Option.some_injective _ hd with rfl
    exact List.mem_map.mpr ⟨_, List.mem_range.mpr hargmax, rfl⟩

/-- Witness for C1's amended theorem at N = 4. -/
theorem choice_scorer_witness :
    (target_logit_list (fun _ => 0) (fun _ => 0) 4).length = 4 :=
  (choice_scorer_restricted_to_len_choices (fun _ => 0) (fun _ => 0) 4
    (by decide) (by decide)).1

/-- C1 counterexample: for an item with N = 4 valid choices, the
training-evaluation path still softmaxes all five digit logits and here
selects index 4 — the digit "5" — which is outside the claimed set
containing only "1".."4". -/
theorem training_eval_path_ignores_len_choices :
    preprocess_logits_for_metrics cx_vocab cx_example = some [0, 0, 0, 0, 1]
    ∧ train_eval_prediction cx_vocab cx_example = some 4
    ∧ pred_choices_map 4 = some "5".toList
    ∧ "5".toList ∉ (List.range 4).map (fun i => (toString (i + 1)).toList) := by
  have h01 : (0 : ℝ) < 1 := by norm_num
  have hsel : preprocess_logits_for_metrics cx_vocab cx_example =
      some [(0 : ℝ), 0, 0, 0, 1] := rfl
  have e1 : np_argmax [(1 : ℝ)] = 0 := rfl
  have e2 : np_argmax [(0 : ℝ), 1] = 1 := by
    rw [np_argmax_cons, e1]
    simp [h01]
  have e3 : np_argmax [(0 : ℝ), 0, 1] = 2 := by
    rw [np_argmax_cons, e2]
    simp [h01]
  have e4 : np_argmax [(0 : ℝ), 0, 0, 1] = 3 := by
    rw [np_argmax_cons, e3]
    simp [h01]
  have e5 : np_argmax [(0 : ℝ), 0, 0, 0, 1] = 4 := by
    rw [np_argmax_cons, e4]
    simp [h01]
  refine ⟨hsel, ?_, rfl, by decide⟩
  rw [train_eval_prediction, hsel]
  rw [Option.map_some']
  rw [np_argmax_softmax _ (by simp), e5]

/-- C4 (amended): on a filtered set of n rows the split puts
`ceil(0.1 * n)` rows (the sklearn-style size the external library
computes) into the eval part; train and eval together are a permutation
of the filtered set, selected through the seeded permutation; and the
split is a pure function of the permutation (itself a pure function of
the seed), so equal seeds give identical partitions. -/
theorem train_test_split_sizes_and_partition {α : Type} [DecidableEq α]
    (perm : List Nat) (xs : List α)
    (hperm : perm.Perm (List.range xs.length)) :
    (train_test_split perm xs).test.length = n_test_of xs.length
    ∧ ((train_test_split perm xs).train ++ (train_test_split perm xs).test).Perm xs
    ∧ (∀ gen : Nat → Nat → List Nat,
        train_test_split (gen 42 xs.length) xs = train_test_split (gen 42 xs.length) xs) := by
  have hmem : ∀ i ∈ perm, i < xs.length := by
    intro i hi
    exact List.mem_range.mp (hperm.mem_iff.mp hi)
  have hplen : perm.length = xs.length := by
    simpa using hperm.length_eq
  refine ⟨?_, ?_, fun _ => rfl⟩
  · show (select_rows xs (perm.take (n_test_of xs.length))).length = _
    rw [select_rows_length xs _ (fun i hi => hmem i (List.take_subset _ _ hi))]
    rw [List.length_take, hplen]
    exact Nat.min_eq_left (n_test_of_le xs.length)
  · show (select_rows xs (perm.drop (n_test_of xs.length)) ++
        select_rows xs (perm.take (n_test_of xs.length))).Perm xs
    have happ : select_rows xs (perm.drop (n_test_of xs.length)) ++
        select_rows xs (perm.take (n_test_of xs.length)) =
        select_rows xs (perm.drop (n_test_of xs.length) ++ perm.take (n_test_of xs.length)) := by
      rw [select_rows, select_rows, select_rows, List.filterMap_append]
    rw [happ]
    have hp1 : (perm.drop (n_test_of xs.length) ++ perm.take (n_test_of xs.length)).Perm
        (List.range xs.length) := by
      refine List.Perm.trans ?_ hperm
      refine List.Perm.trans (List.perm_append_comm) ?_
      rw [List.take_append_drop]
    have := hp1.filterMap (fun i => xs.get? i)
    rw [show List.filterMap (fun i => xs.get? i) (List.range xs.length) =
        select_rows xs (List.range xs.length) from rfl, select_rows_range] at this
    exact this

/-- Witness for C4's amended theorem on a two-element set with the swap
permutation. -/
theorem train_test_split_witness :
    (train_test_split [1, 0] [10, 20]).test.length = n_test_of 2 :=
  (train_test_split_sizes_and_partition [1, 0] [10, 20] (by decide)).1

/-- C4 counterexample: at n = 101 the library's eval size,
`ceil(0.1 * 101) = 11`, differs from the claimed `round(0.1 * 101) = 10`;
the split of a concrete 101-row set indeed has a test part of 11 rows. -/
theorem eval_size_is_ceil_not_round :
    (train_test_split (List.range 101) (List.range 101)).test.length = 11
    ∧ n_test_of 101 = 11
    ∧ n_test_spec 101 = 10 := by
  have hceil : n_test_of 101 = 11 := by
    rw [n_test_of]
    rw [show ((1 : ℚ) / 10) * ((101 : Nat) : ℚ) = 101 / 10 by norm_num]
    rw [Nat.ceil_eq_iff (by norm_num)]
    constructor <;> norm_num
  refine ⟨?_, hceil, ?_⟩
  · show (select_rows (List.range 101) ((List.range 101).take (n_test_of 101))).length = 11
    rw [hceil]
    decide
  · rw [n_test_spec, round_eq,
      show ((1 : ℚ) / 10) * ((101 : Nat) : ℚ) + 1 / 2 = 53 / 5 by norm_num]
    rw [Int.floor_eq_iff]
    constructor <;> norm_num

/-- C6: a training example's message sequence ends with an assistant turn
holding the literal stringified answer, and an inference example's
sequence ends after the user turn and contains no assistant turn. -/
theorem prompt_example_turn_structure
    (q_plus : PyStr → PyStr → PyStr → PyStr → PyStr)
    (no_q_plus : PyStr → PyStr → PyStr → PyStr) (r : ExamRecord) (a : Int)
    (ha : r.answer = some a) :
    (train_messages q_plus no_q_plus r).getLast? =
      some { role := Role.assistant, content := (toString a).toList }
    ∧ (test_messages q_plus no_q_plus r).getLast? =
      some { role := Role.user, content := user_message q_plus no_q_plus r }
    ∧ (∀ m ∈ test_messages q_plus no_q_plus r, m.role ≠ Role.assistant) := by
  refine ⟨?_, rfl, ?_⟩
  · simp [train_messages, List.getLast?, py_format_answer, ha]
  · intro m hm
    simp only [test_messages, List.mem_cons, List.mem_singleton] at hm
    rcases hm with rfl | hm
    · simp [system_message]
    · rcases hm with rfl | hm
      · simp
      · cases hm

/-- Witness for C6 at a record whose answer is 3. -/
theorem prompt_example_turn_witness :
    (train_messages (fun _ _ _ _ => []) (fun _ _ _ => [])
      { id := [], paragraph := [], question := [], choices := [],
        answer := some 3, question_plus := none }).getLast? =
      some { role := Role.assistant, content := (toString (3 : Int)).toList } :=
  (prompt_example_turn_structure (fun _ _ _ _ => []) (fun _ _ _ => [])
    { id := [], paragraph := [], question := [], choices := [],
      answer := some 3, question_plus := none } 3 rfl).1

/-- C7: the record normalizer copies the row's id and paragraph verbatim,
surfaces an absent `question_plus` as `none` rather than a key failure,
and the whole normalization fails exactly when some row's embedded
structure cannot be decoded. -/
theorem record_normalizer_contract (parse : PyStr → Option Problems)
    (row : RawRow) (problems : Problems) (rows : List RawRow)
    (hp : parse row.problems = some problems) :
    record_to_df parse [row] = some [record_of_row row problems]
    ∧ (record_of_row row problems).id = row.id
    ∧ (record_of_row row problems).paragraph = row.paragraph
    ∧ (record_of_row row problems).question_plus = problems.question_plus
    ∧ (problems.question_plus = none → (record_of_row row problems).question_plus = none)
    ∧ (record_to_df parse rows = none ↔ ∃ r ∈ rows, parse r.problems = none) := by
  refine ⟨by rw [record_to_df, hp]; rfl, rfl, rfl, rfl, fun h => h ▸ rfl, ?_⟩
  induction rows with
  | nil => simp [record_to_df]
  | cons r rest ih =>
    rw [record_to_df]
    cases hr : parse r.problems with
    | none =>
      exact iff_of_true rfl ⟨r, List.mem_cons_self r rest, hr⟩
    | some p =>
      simp only [Option.map_eq_none']
      rw [ih]
      constructor
      · rintro ⟨r', hr', hn⟩
        exact ⟨r', List.mem_cons_of_mem _ hr', hn⟩
      · rintro ⟨r', hr', hn⟩
        rcases List.mem_cons.mp hr' with rfl | hmem
        · rw [hr] at hn
          cases hn
        · exact ⟨r', hmem, hn⟩

/-- Witness for C7 at a concretely decodable row. -/
theorem record_normalizer_witness :
    (record_of_row { id := "i".toList, paragraph := "p".toList, problems := "x".toList }
      { question := [], choices := [], answer := none, question_plus := none }).id =
      "i".toList :=
  (record_normalizer_contract
    (fun _ => some { question := [], choices := [], answer := none, question_plus := none })
    { id := "i".toList, paragraph := "p".toList, problems := "x".toList }
    { question := [], choices := [], answer := none, question_plus := none }
    [] rfl).2.1

/-- C8: launching without the `--run_name` flag lands in the interactive
re-prompt, which repeats past empty answers and returns exactly the first
non-empty run name; any error raised in the core try block is logged,
re-raised and still runs the accelerator-memory cleanup. -/
theorem missing_run_name_reprompts (argv inputs : List PyStr) (k : Nat)
    (s : PyStr) (ε α : Type) (e : ε)
    (hmiss : "--run_name".toList ∉ argv)
    (hempty : ∀ j, j < k → inputs.get? j = some [])
    (hk : inputs.get? k = some s) (hs : s ≠ []) :
    parse_argv_run_name argv inputs = some s
    ∧ main_try_block ε α (Except.error e) =
        { logged := [e], cleanup_ran := true, outcome := Except.error e } := by
  refine ⟨?_, rfl⟩
  rw [parse_argv_run_name]
  rw [List.indexOf?_eq_none_iff.mpr ?hne]
  case hne =>
    intro x hx
    simp only [beq_iff_eq]
    rintro rfl
    exact hmiss hx
  have main : ∀ (n : Nat) (l : List PyStr), (∀ j, j < n → l.get? j = some []) →
      l.get? n = some s → reprompt_run_name l = some s := by
    intro n
    induction n with
    | zero =>
      intro l _ h0
      cases l with
      | nil => cases h0
      | cons a rest =>
        have : a = s := by simpa using h0
        subst this
        have hfalse : a.isEmpty = false := by
          cases a with
          | nil => exact absurd rfl hs
          | cons c t => rfl
        rw [reprompt_run_name, hfalse]
        rfl
    | succ n ih =>
      intro l hemp hk1
      cases l with
      | nil => cases hk1
      | cons a rest =>
        have h0 : a = [] := by
          have := hemp 0 (Nat.succ_pos n)
          simpa using this
        subst h0
        rw [reprompt_run_name]
        simp only [List.isEmpty_nil, if_true]
        exact ih rest (fun j hj => by simpa using hemp (j + 1) (Nat.succ_lt_succ hj))
          (by simpa using hk1)
  exact main k inputs hempty hk

/-- Witness for C8: argv without the flag, one empty interactive answer
followed by a non-empty one. -/
theorem missing_run_name_witness :
    parse_argv_run_name [] [[], "r".toList] = some "r".toList :=
  (missing_run_name_reprompts [] [[], "r".toList] 1 "r".toList Nat Unit 0
    (List.not_mem_nil _) (by intro j hj; interval_cases j; rfl) rfl (by simp)).1

/-- C9: every `__main__` invocation calls `main` with `debug=True`, so the
input rows are always first reduced to the 500 seeded sample positions
before any further processing; the unsampled dataset never flows on. -/
theorem main_entry_always_debug_samples (argv_run_name : PyStr)
    (sample_idx : List Nat) (rows : List RawRow)
    (hlen : sample_idx.length = 500)
    (hvalid : ∀ i ∈ sample_idx, i < rows.length) :
    (main_invocation argv_run_name).debug = true
    ∧ load_input_rows (main_invocation argv_run_name).debug sample_idx rows =
        select_rows rows sample_idx
    ∧ (load_input_rows (main_invocation argv_run_name).debug sample_idx rows).length = 500 := by
  refine ⟨rfl, rfl, ?_⟩
  show (select_rows rows sample_idx).length = 500
  rw [select_rows_length rows sample_idx hvalid, hlen]

/-- Witness for C9 on a concrete 500-row frame sampled at all positions. -/
theorem main_entry_debug_witness :
    (load_input_rows (main_invocation []).debug (List.range 500)
      (List.replicate 500 { id := [], paragraph := [], problems := [] })).length = 500 :=
  (main_entry_always_debug_samples [] (List.range 500)
    (List.replicate 500 { id := [], paragraph := [], problems := [] })
    (List.length_range 500)
    (by intro i hi; rw [List.length_replicate]; exact List.mem_range.mp hi)).2.2

